import Mathlib

/-!
Verification development for the eon-watcher-server repository.

Shallow embedding of the core pipeline, translated from the JavaScript
source:
* `src/services/seasonGoals.js` (SeasonGoalService, PriceFeed)
* `src/services/watcher.js` (BlockchainWatcher)
* `src/services/blockchain.js` (BlockchainService)
* `src/models/Wallet.js` (transactionRecordSchema)

Conventions used throughout:
* JavaScript BigInt arithmetic is unbounded, so it is embedded as `Int`
  (or `Nat` where the source values are provably nonnegative).
* Mongo documents are embedded as structures; an absent / null string
  field is embedded as `""` (resp. `Option.none` where the distinction
  matters), matching the truthiness checks that the source performs.
* Store reads that the source wraps in try/catch are embedded with an
  explicit `Fetch` outcome type; a rejected promise is `Fetch.err` and
  the catch handler is part of the embedded function.
* Addresses are lowercase-normalised with `toLowerStr` (ASCII lowering,
  which is what `.toLowerCase()` does on the hex strings in scope),
  matching the `.toLowerCase()` calls and case-insensitive `RegExp`
  matches.
-/

/-- ASCII lowercase of a character, as `String.prototype.toLowerCase`
acts on the ASCII range (all address and hash strings in this system are
ASCII hex strings). -/
def lowerChar (c : Char) : Char :=
  if 'A' ≤ c ∧ c ≤ 'Z' then Char.ofNat (c.toNat + 32) else c

/-- `String.prototype.toLowerCase` on ASCII strings. -/
def toLowerStr (s : String) : String := String.mk (s.data.map lowerChar)

/-- `s.startsWith('0x')`. -/
def strStartsWith0x (s : String) : Bool :=
  match s.data with
  | '0' :: 'x' :: _ => true
  | _ => false

namespace SeasonGoals

/-- Outcome of an awaited store read.  `err` stands for a rejected
promise (store unreachable); both `getMostRecentSeason` and
`getSeasonTransactions` catch such rejections in the source. -/
inductive Fetch (α : Type) where
  | ok (value : α)
  | err
deriving DecidableEq

/-- The parsed shape of `tx.donation.usdcValue` (a string field) as
consumed by `calculateTotalDonation` in `seasonGoals.js`:
an integer numeric string is taken as base units via `BigInt`,
a decimal numeric string is converted via `Math.round(parseFloat(s) * 1e6)`
(we embed the already-rounded base-unit value), and a non-numeric string
(`isNaN(Number(s))`) contributes `0`. -/
inductive UsdcValue where
  | intStr (baseUnits : Nat)
  | decStr (roundedBaseUnits : Nat)
  | nonNumeric
deriving DecidableEq

/-- The `donation` subdocument of a transaction record, restricted to the
fields `seasonGoals.js` reads (`donation.from`, `donation.usdcValue`). -/
structure DonationInfo where
  fromAddr : String
  usdcValue : Option UsdcValue
deriving DecidableEq

/-- A settlement record (collection `transaction_records`,
`transactionRecordSchema` in `src/models/Wallet.js`), restricted to the
fields read by the season-goal queries. -/
structure TxRecordDoc where
  txHash : String
  donation : Option DonationInfo
  status : String
  blockTimestamp : Nat
deriving DecidableEq

/-- Contribution of one record's `donation.usdcValue` to the season total,
from the body of the loop in `calculateTotalDonation`:
numeric strings yield their base-unit value, a non-numeric string is
warned about and contributes `0`. -/
def usdcContribution : Option UsdcValue → Nat
  | some (.intStr n) => n
  | some (.decStr n) => n
  | some .nonNumeric => 0
  | none => 0

/-- `SeasonGoalService.calculateTotalDonation`: sums `donation.usdcValue`
over the given records.  Records without a `donation` subdocument (or
without a `usdcValue` field) are skipped, i.e. contribute `0`. -/
def calculateTotalDonation (transactions : List TxRecordDoc) : Nat :=
  transactions.foldl
    (fun total tx =>
      match tx.donation with
      | some d => total + usdcContribution d.usdcValue
      | none => total)
    0

/-- The Mongo filter used by `SeasonGoalService.getSeasonTransactions`:
`donation.from` matches the wallet case-insensitively, `status` is
`"success"`, and `blockTimestamp` lies in `[startTimestamp, endTimestamp]`. -/
def seasonTxMatch (walletAddress : String) (startTimestamp endTimestamp : Nat)
    (tx : TxRecordDoc) : Bool :=
  (match tx.donation with
   | some d => toLowerStr d.fromAddr == toLowerStr walletAddress
   | none => false)
  && tx.status == "success"
  && decide (startTimestamp ≤ tx.blockTimestamp)
  && decide (tx.blockTimestamp ≤ endTimestamp)

/-- `SeasonGoalService.getSeasonTransactions` on an already-fetched
record collection: the filter part of the query. -/
def getSeasonTransactions (walletAddress : String)
    (startTimestamp endTimestamp : Nat) (store : List TxRecordDoc) :
    List TxRecordDoc :=
  store.filter (seasonTxMatch walletAddress startTimestamp endTimestamp)

/-- `SeasonGoalService.getSeasonTransactions` including its catch handler:
a rejected store read is caught and yields `[]`. -/
def getSeasonTransactionsRun (walletAddress : String)
    (startTimestamp endTimestamp : Nat) (fetch : Fetch (List TxRecordDoc)) :
    List TxRecordDoc :=
  match fetch with
  | .ok store => getSeasonTransactions walletAddress startTimestamp endTimestamp store
  | .err => []

/-- A season record (an `ExistingWallet` document) restricted to the
fields `checkAndAdjustDonation` reads.  `dollarAmount` is the goal in
whole dollars (the source stores it as a number/string and converts with
`parseFloat`; the claims only involve integral nonnegative goals, so it
is embedded as `Option Nat`, `none` for an absent or null field).
`sid` stands for the Mongo `_id`; `creationTime` is
`_id.getTimestamp()` in epoch seconds. -/
structure SeasonDoc where
  sid : Nat
  walletAddress : String
  dollarAmount : Option Nat
  active : Option Bool
  startDate : Option Nat
  endDate : Option Nat
  creationTime : Nat
deriving DecidableEq

/-- `SeasonGoalService.getMostRecentSeason` including its catch handler:
the fetched query result is returned as-is, a rejected read is caught and
yields `null`. -/
def getMostRecentSeason (fetch : Fetch (Option SeasonDoc)) : Option SeasonDoc :=
  match fetch with
  | .ok s => s
  | .err => none

/-- JavaScript truthiness of the embedded `dollarAmount` field:
`!season.dollarAmount` is true exactly for an absent field or the
number `0`. -/
def dollarAmountTruthy : Option Nat → Bool
  | some d => d != 0
  | none => false

/-- Result object of `SeasonGoalService.checkAndAdjustDonation`.
`adjustedAmount` / `proposedAmount` are returned as `.toString()` of
BigInts in the source; the embedding keeps the numeric value.
`markedCompleted` records whether `markSeasonCompleted` was invoked on
this path (the completion side effect). -/
structure AdjustResult where
  needsAdjustment : Bool
  adjustedAmount : Int
  proposedAmount : Int
  seasonId : Option Nat
  isGoalComplete : Bool
  totalDonated : Option Int
  goalAmount : Option Int
  markedCompleted : Bool
  hasError : Bool
deriving DecidableEq

/-- The default response of `checkAndAdjustDonation` (no season, no goal
amount, or inactive season). -/
def defaultAdjust (proposedAmount : Int) : AdjustResult :=
  { needsAdjustment := false
    adjustedAmount := proposedAmount
    proposedAmount := proposedAmount
    seasonId := none
    isGoalComplete := false
    totalDonated := none
    goalAmount := none
    markedCompleted := false
    hasError := false }

/-- `SeasonGoalService.checkAndAdjustDonation`, embedded over the two
store reads it performs.  `now` is `Math.floor(Date.now() / 1000)`.
The goal amount is `BigInt(Math.floor(parseFloat(dollarAmount) * 1e6))`,
i.e. `dollarAmount * 1000000` for integral goals. -/
def checkAndAdjustDonation (walletAddress : String) (proposedAmount : Int)
    (seasonFetch : Fetch (Option SeasonDoc))
    (txFetch : Fetch (List TxRecordDoc)) (now : Nat) : AdjustResult :=
  match getMostRecentSeason seasonFetch with
  | none => defaultAdjust proposedAmount
  | some season =>
    if ¬ dollarAmountTruthy season.dollarAmount then
      defaultAdjust proposedAmount
    else if season.active ≠ some true then
      defaultAdjust proposedAmount
    else
      let startTimestamp := season.startDate.getD season.creationTime
      let endTimestamp := season.endDate.getD now
      let transactions :=
        getSeasonTransactionsRun walletAddress startTimestamp endTimestamp txFetch
      let totalDonatedSoFar : Int := calculateTotalDonation transactions
      let dollarValue : Nat := season.dollarAmount.getD 0
      let goalAmount : Int := (dollarValue : Int) * 1000000
      if totalDonatedSoFar ≥ goalAmount then
        { needsAdjustment := true
          adjustedAmount := 0
          proposedAmount := proposedAmount
          seasonId := some season.sid
          isGoalComplete := true
          totalDonated := some totalDonatedSoFar
          goalAmount := some goalAmount
          markedCompleted := season.active ≠ some false
          hasError := false }
      else if totalDonatedSoFar + proposedAmount > goalAmount then
        { needsAdjustment := true
          adjustedAmount := goalAmount - totalDonatedSoFar
          proposedAmount := proposedAmount
          seasonId := some season.sid
          isGoalComplete := true
          totalDonated := some totalDonatedSoFar
          goalAmount := some goalAmount
          markedCompleted := true
          hasError := false }
      else
        { needsAdjustment := false
          adjustedAmount := proposedAmount
          proposedAmount := proposedAmount
          seasonId := some season.sid
          isGoalComplete := false
          totalDonated := some totalDonatedSoFar
          goalAmount := some goalAmount
          markedCompleted := false
          hasError := false }

/-- The catch handler of `checkAndAdjustDonation`: any exception thrown
inside the try block is caught and yields the unadjusted fallback with an
`error` field. -/
def catchFallback (proposedAmount : Int) : AdjustResult :=
  { needsAdjustment := false
    adjustedAmount := proposedAmount
    proposedAmount := proposedAmount
    seasonId := none
    isGoalComplete := false
    totalDonated := none
    goalAmount := none
    markedCompleted := false
    hasError := true }

/-- `checkAndAdjustDonation` with its outer try/catch: `thrown` records
whether an exception was raised inside the try block (e.g. a malformed
`proposedAmount` string failing `BigInt` conversion); when it is, the
catch handler returns the unadjusted fallback. -/
def checkAndAdjustDonationRun (thrown : Bool) (walletAddress : String)
    (proposedAmount : Int) (seasonFetch : Fetch (Option SeasonDoc))
    (txFetch : Fetch (List TxRecordDoc)) (now : Nat) : AdjustResult :=
  if thrown then catchFallback proposedAmount
  else checkAndAdjustDonation walletAddress proposedAmount seasonFetch txFetch now

/-- The module-level wrapper installed over every `SeasonGoalService`
method (`seasonGoals.js`, bottom of file): if the original
`checkAndAdjustDonation` resolves to `undefined` (`raw = none`) or
throws, the wrapper substitutes a safe fallback whose `adjustedAmount`
is the unadjusted second argument.  `raw = some r` is the original
resolved result. -/
def wrappedCheckAndAdjustDonation (raw : Option AdjustResult)
    (proposedArg : Int) : AdjustResult :=
  match raw with
  | some r => r
  | none =>
    { needsAdjustment := false
      adjustedAmount := proposedArg
      proposedAmount := proposedArg
      seasonId := none
      isGoalComplete := false
      totalDonated := none
      goalAmount := none
      markedCompleted := false
      hasError := false }

end SeasonGoals

namespace Watcher

/-- `PriceFeed.convertEthToUsdc` (in `seasonGoals.js`): the wei amount is
multiplied by the ETH price scaled to 18 decimals
(`BigInt(Math.floor(ethPrice * 1e18))`, embedded as the parameter
`ethPriceE18`), divided by `1e18` to a USD value, then divided by `1e12`
down to 6-decimal USDC base units.  All operations are BigInt floor
divisions.  The `!ethAmount` guard returns `0n`, which coincides with the
formula at `ethAmount = 0`. -/
def convertEthToUsdc (ethAmount : Nat) (ethPriceE18 : Nat) : Nat :=
  ethAmount * ethPriceE18 / 10 ^ 18 / 10 ^ 12

/-- The donation computation in `BlockchainWatcher.processValueTransfer`
for one configuration: the BigInt result is
`(usdcEquivalent * percent) / 100`; if it is zero the code falls back to
`BigInt(Math.floor(donationAmountFloat * 1e6))`, where
`donationAmountFloat = Number(formatUnits(usdcEquivalent, 6)) * (percent / 100)`,
and takes the smallest USDC unit `1` if that floor is still zero.

Floating-point note: the float fallback is only consulted when the BigInt
floor is `0`, i.e. when `usdcEquivalent * percent ≤ 99`; in that range the
double computation of `(usdcEquivalent / 1e6) * (percent / 100) * 1e6` has
relative error far below the distance of the exact value
`usdcEquivalent * percent / 100 ≤ 0.99` from `1`, so its floor is the
exact floor and its sign is the exact sign.  The embedding therefore uses
the exact values: `floatBasedAmount = usdcEquivalent * percent / 100`
(floor) and the positivity test `0 < usdcEquivalent * percent`. -/
def finalDonationAmount (usdcEquivalent : Nat) (donationPercentage : Nat) : Nat :=
  let donationAmount := usdcEquivalent * donationPercentage / 100
  if 0 < donationAmount then
    donationAmount
  else if 0 < usdcEquivalent * donationPercentage then
    let floatBasedAmount := usdcEquivalent * donationPercentage / 100
    if 0 < floatBasedAmount then floatBasedAmount else 1
  else
    0

/-- A wallet-configuration document (`ExistingWallet`) as consumed by
`BlockchainWatcher.refreshWatchedWallets`, restricted to the fields the
loop reads.  An absent / empty string field is embedded as `""` and an
absent / zero `percentAmount` as `0`, matching the truthiness checks
`!config.walletAddress || !config.target || !config.percentAmount`. -/
structure WalletConfigDoc where
  cid : Nat
  walletAddress : String
  target : String
  percentAmount : Nat
  authorized : String
  network : String
  lastDonation : Nat
  timestamp : Nat
deriving DecidableEq

/-- Address normalisation in `refreshWatchedWallets`: prepend `0x` when
the prefix is missing, then lowercase. -/
def normalizeWalletAddress (a : String) : String :=
  toLowerStr (if strStartsWith0x a then a else "0x" ++ a)

/-- The per-wallet configuration object built by
`refreshWatchedWallets`. -/
structure WalletConfig where
  cid : Nat
  target : String
  percentAmount : Nat
  authorized : Option String
  network : String
  lastDonation : Nat
  timestamp : Nat
deriving DecidableEq

/-- An entry of the `watchedWallets` map. -/
structure WatchedWalletEntry where
  walletAddress : String
  configurations : List WalletConfig
deriving DecidableEq

/-- The in-loop validity check of `refreshWatchedWallets`
(`!config.walletAddress || !config.target || !config.percentAmount`). -/
def configValid (c : WalletConfigDoc) : Bool :=
  c.walletAddress != "" && c.target != "" && decide (c.percentAmount ≠ 0)

/-- The configuration object `refreshWatchedWallets` builds from a
document: target lowercased, `authorized` lowercased or `null` when
falsy, `network` defaulted to `"base-sepolia"`, `lastDonation` defaulted
to `0` (already embedded as `Nat`). -/
def mkWalletConfig (c : WalletConfigDoc) : WalletConfig :=
  { cid := c.cid
    target := toLowerStr c.target
    percentAmount := c.percentAmount
    authorized := if c.authorized == "" then none else some (toLowerStr c.authorized)
    network := if c.network == "" then "base-sepolia" else c.network
    lastDonation := c.lastDonation
    timestamp := c.timestamp }

/-- The map entry built for a document. -/
def mkEntry (c : WalletConfigDoc) : WatchedWalletEntry :=
  { walletAddress := normalizeWalletAddress c.walletAddress
    configurations := [mkWalletConfig c] }

/-- The loop body of `refreshWatchedWallets`: iterate over the query
result (sorted by `timestamp` descending), skip invalid configurations,
skip wallets already processed, and register the first (most recent)
configuration per normalised wallet address.  `processed` is the
`processedWallets` set; `acc` is the `watchedWallets` map as an
association list (insertion order). -/
def refreshLoop :
    List WalletConfigDoc → List String → List (String × WatchedWalletEntry) →
    List (String × WatchedWalletEntry)
  | [], _, acc => acc
  | c :: rest, processed, acc =>
    if configValid c then
      let w := normalizeWalletAddress c.walletAddress
      if w ∈ processed then refreshLoop rest processed acc
      else refreshLoop rest (w :: processed) (acc ++ [(w, mkEntry c)])
    else
      refreshLoop rest processed acc

/-- `BlockchainWatcher.refreshWatchedWallets` on a query result `docs`
(the database returns active configurations sorted by `timestamp`
descending; the map is cleared before the loop runs). -/
def refreshWatchedWallets (docs : List WalletConfigDoc) :
    List (String × WatchedWalletEntry) :=
  refreshLoop docs [] []

end Watcher

namespace Blockchain

/-- Result object of `BlockchainService.processDonations`. -/
structure ProcessResult where
  success : Bool
  message : String
  transactionHash : Option String
deriving DecidableEq

/-- Chain interactions performed by `processDonations`, in order:
the `isExecutor` view call, one `allowance` view call per batch entry,
and the batched `donate` submission. -/
inductive ChainCall where
  | isExecutorCall (executor : String)
  | allowanceCall (owner spender : String)
  | donateCall (froms tos : List String) (donationTimes usdcAmounts : List Nat)
deriving DecidableEq

/-- The chain environment `processDonations` runs against, on the path
where no RPC call fails.  `executorOk` is `isExecutor(wallet.address)`,
`allowanceOf from` is `allowance(from, contract)`, and `donateHash` is
the receipt hash of the submitted `donate` transaction.  The
rate-limit retry loops in the source only engage when an RPC call
rejects, so they are identities in this deterministic environment. -/
structure ChainEnv where
  executorOk : Bool
  allowanceOf : String → Nat
  donateHash : String
  contractAddr : String
  operatorAddr : String

/-- One entry of the internal parallel arrays
`(froms, tos, donationTimes, usdcAmounts)`. -/
structure BatchEntry where
  fromAddr : String
  toAddr : String
  donationTime : Nat
  amount : Nat
deriving DecidableEq

/-- Rebuild the parallel arrays as a list of entries; used after the
equal-length check has passed (for unequal lengths the source has
already returned). -/
def zipEntries : List String → List String → List Nat → List Nat → List BatchEntry
  | f :: fs, t :: ts, d :: ds, a :: amts =>
    { fromAddr := f, toAddr := t, donationTime := d, amount := a } ::
      zipEntries fs ts ds amts
  | _, _, _, _ => []

/-- One donation object of the flat-array input form. -/
structure FlatDonation where
  fromAddr : String
  toAddr : String
  amount : Nat
deriving DecidableEq

/-- The two input shapes `processDonations` accepts: a flat array of
donation objects, or an object of pre-formatted parallel arrays (absent
arrays default to `[]` before the length check). -/
inductive DonationInput where
  | flat (ds : List FlatDonation)
  | formatted (froms tos : List String) (donationTimes usdcAmounts : List Nat)

/-- The allowance-check loop of `processDonations`: each entry's
`allowance(from, contract)` is queried exactly once, in order; entries
with `allowance < amount` are spliced out of the batch (and never
retried), the rest are kept. -/
def allowanceFilter (env : ChainEnv) :
    List BatchEntry → List BatchEntry × List ChainCall
  | [] => ([], [])
  | e :: rest =>
    let tail := allowanceFilter env rest
    if env.allowanceOf e.fromAddr < e.amount then
      (tail.1, .allowanceCall e.fromAddr env.contractAddr :: tail.2)
    else
      (e :: tail.1, .allowanceCall e.fromAddr env.contractAddr :: tail.2)

/-- The submission phase of `processDonations`, after the input has been
normalised to a list of batch entries: the final emptiness check, the
executor precondition, the allowance-check loop, and the single batched
`donate` call.  Returns the result object together with the trace of
chain interactions. -/
def submitBatch (env : ChainEnv) (entries : List BatchEntry) :
    ProcessResult × List ChainCall :=
  if entries.isEmpty then
    ({ success := true, message := "No donations to process",
       transactionHash := none }, [])
  else if ¬ env.executorOk then
    ({ success := false, message := "Wallet is not an executor for this contract",
       transactionHash := none }, [.isExecutorCall env.operatorAddr])
  else
    let filtered := allowanceFilter env entries
    if filtered.1.isEmpty then
      ({ success := false, message := "No donations with sufficient allowance",
         transactionHash := none },
       .isExecutorCall env.operatorAddr :: filtered.2)
    else
      ({ success := true, message := "Donations processed successfully",
         transactionHash := some env.donateHash },
       .isExecutorCall env.operatorAddr :: filtered.2 ++
         [.donateCall (filtered.1.map (·.fromAddr)) (filtered.1.map (·.toAddr))
            (filtered.1.map (·.donationTime)) (filtered.1.map (·.amount))])

/-- `BlockchainService.processDonations` on the non-rejecting path:
input-shape normalisation (empty flat array succeeds with nothing to do;
pre-formatted arrays of unequal or zero length fail with
`"Invalid donation data format"`), then the submission phase.  `nowTs`
is the `Math.floor(Date.now() / 1000)` stamp used for flat input. -/
def processDonations (env : ChainEnv) (input : DonationInput) (nowTs : Nat) :
    ProcessResult × List ChainCall :=
  match input with
  | .flat ds =>
    if ds.isEmpty then
      ({ success := true, message := "No donations to process",
         transactionHash := none }, [])
    else
      submitBatch env (ds.map fun d =>
        { fromAddr := d.fromAddr, toAddr := d.toAddr,
          donationTime := nowTs, amount := d.amount })
  | .formatted froms tos donationTimes usdcAmounts =>
    if froms.length = 0 ∨ froms.length ≠ tos.length ∨
        froms.length ≠ donationTimes.length ∨
        froms.length ≠ usdcAmounts.length then
      ({ success := false, message := "Invalid donation data format",
         transactionHash := none }, [])
    else
      submitBatch env (zipEntries froms tos donationTimes usdcAmounts)

end Blockchain

namespace QueueModel

/-- A stored settlement record (`transaction_records` collection),
restricted to the fields `processTransactionQueue` writes and the
claims read.  `transactionRecordSchema` declares `txHash` with
`unique: true`, the durable uniqueness constraint. -/
structure StoredRecord where
  txHash : String
  status : String
  errorMsg : Option String
  donationAmount : Nat
  donationTxHash : Option String
deriving DecidableEq

/-- `document.save()` under the unique index on `txHash`: inserting a
record whose `txHash` already exists rejects with a duplicate-key error
(`E11000`), embedded as `none`; otherwise the record is appended. -/
def saveNew (store : List StoredRecord) (r : StoredRecord) :
    Option (List StoredRecord) :=
  if store.any (fun x => x.txHash == r.txHash) then none
  else some (store ++ [r])

/-- Apply a `findOneAndUpdate` update document to a record: `status` is
always set; `error` and `donation.donationTxHash` are set only when the
update document carries them. -/
def applyUpdate (r : StoredRecord) (newStatus : String) (err : Option String)
    (dHash : Option String) : StoredRecord :=
  { r with
    status := newStatus
    errorMsg := match err with | some e => some e | none => r.errorMsg
    donationTxHash := match dHash with | some s => some s | none => r.donationTxHash }

/-- `TransactionRecord.findOneAndUpdate({ txHash }, update)`: update the
first record matching the hash, leave the rest unchanged. -/
def findOneAndUpdateStatus (store : List StoredRecord) (h : String)
    (newStatus : String) (err : Option String) (dHash : Option String) :
    List StoredRecord :=
  match store with
  | [] => []
  | r :: rest =>
    if r.txHash == h then applyUpdate r newStatus err dHash :: rest
    else r :: findOneAndUpdateStatus rest h newStatus err dHash

/-- A queued donation intent, restricted to the fields
`processTransactionQueue` uses for the settlement record and the chain
call. -/
structure QueueDonation where
  txHash : String
  fromAddr : String
  toAddr : String
  donationAmount : Nat
  timestamp : Nat
deriving DecidableEq

/-- The message carried by a Mongo duplicate-key rejection of `save()`
(`error.message` in the catch handler). -/
def duplicateKeyMessage : String := "E11000 duplicate key error"

/-- The body of one `processTransactionQueue` drain step for a dequeued
donation, translated from `watcher.js`: create a pending settlement
record and `save()` it; on a duplicate-key rejection the generic catch
handler runs `findOneAndUpdate` setting the (already existing) record to
`failed` with the error message, and no chain call is made.  On a
successful save, `blockchainService.processDonations` is called with
singleton arrays; a successful result updates the record to `success`
with the donation transaction hash, a failure result (or rejection)
updates it to `failed` with the message.  Returns the resulting store
and the trace of chain interactions. -/
def processQueueItem (env : Blockchain.ChainEnv) (store : List StoredRecord)
    (d : QueueDonation) : List StoredRecord × List Blockchain.ChainCall :=
  let pendingRecord : StoredRecord :=
    { txHash := d.txHash, status := "pending", errorMsg := none,
      donationAmount := d.donationAmount, donationTxHash := none }
  match saveNew store pendingRecord with
  | none =>
    (findOneAndUpdateStatus store d.txHash "failed" (some duplicateKeyMessage) none,
     [])
  | some store1 =>
    let r := Blockchain.processDonations env
      (.formatted [toLowerStr d.fromAddr] [toLowerStr d.toAddr]
        [d.timestamp] [d.donationAmount]) 0
    if r.1.success then
      (findOneAndUpdateStatus store1 d.txHash "success" none r.1.transactionHash,
       r.2)
    else
      (findOneAndUpdateStatus store1 d.txHash "failed" (some r.1.message) none,
       r.2)

end QueueModel

namespace Dedup

/-- Observable actions of the event-handling phase, in program order.
`markSeen` is `processedTransactions.add(hash)` (the in-memory dedup
set); `persistOutcome` stands for any durable write of an outcome for
the transaction (`TransactionRecord` save/update) — such writes happen
only later, in `processTransactionQueue`, never inside the handlers
modelled here. -/
inductive Action where
  | markSeen (h : String)
  | fetchReceipt (h : String)
  | enqueueIntent (h : String)
  | scanLogs (h : String)
  | persistOutcome (h : String)
deriving DecidableEq

/-- An incoming transaction event (`tx.hash`, `tx.to`, `tx.value`);
an absent field is embedded as `""` / `0` (falsy). -/
structure TxEvent where
  hash : String
  toAddr : String
  value : Nat
deriving DecidableEq

/-- `BlockchainWatcher.checkTransaction`, reduced to its dedup-relevant
skeleton: return early on a missing recipient or value; the
`processedTransactions.has` check only logs (its early return is
commented out in the source); on a watched recipient the hash is added
to `processedTransactions` *first*, then the receipt is fetched and —
when the receipt is present and successful (`receiptOk`) — the donation
intent is computed and enqueued by `processValueTransfer` /
`queueDonation`.  No durable write occurs in this function.  Returns the
updated `processedTransactions` set and the action trace. -/
def checkTransaction (watched : List String) (processed : List String)
    (ev : TxEvent) (receiptOk : Bool) : List String × List Action :=
  if ev.toAddr = "" ∨ ev.value = 0 then (processed, [])
  else
    let recipient := toLowerStr ev.toAddr
    let txHash := toLowerStr ev.hash
    if recipient ∈ watched then
      (txHash :: processed,
       .markSeen txHash :: .fetchReceipt txHash ::
         (if receiptOk then [.enqueueIntent txHash] else []))
    else (processed, [])

/-- `BlockchainWatcher.handleMinedTransaction`, reduced to its
dedup-relevant skeleton: skip events without a hash; skip hashes already
in `processedTransactions`; otherwise add the hash to the set
immediately — before any processing — then run the native-transfer path
(`checkTransaction`) when the recipient is watched, and finally scan the
receipt logs for token transfers.  No durable write occurs here
either. -/
def handleMinedTransaction (watched : List String) (processed : List String)
    (ev : TxEvent) (receiptOk : Bool) : List String × List Action :=
  if ev.hash = "" then (processed, [])
  else
    let txHash := toLowerStr ev.hash
    if txHash ∈ processed then (processed, [])
    else
      let processed1 := txHash :: processed
      let native :=
        if ev.toAddr ≠ "" ∧ toLowerStr ev.toAddr ∈ watched then
          checkTransaction watched processed1 ev receiptOk
        else (processed1, [])
      (native.1, .markSeen txHash :: native.2 ++ [.scanLogs txHash])

/-- Whether an action is a `markSeen`, and the hash it marks. -/
def isMarkSeen : Action → Bool
  | .markSeen _ => true
  | _ => false

/-- The hash marked by a `markSeen` action (`""` otherwise). -/
def markedHash : Action → String
  | .markSeen h => h
  | _ => ""

/-- The policy stated by the specification: every marking of a hash as
seen is preceded (in the same trace) by a durably persisted outcome for
that hash. -/
def seenOnlyAfterPersist (tr : List Action) : Prop :=
  ∀ i : Fin tr.length, isMarkSeen (tr.get i) = true →
    ∃ j : Fin tr.length,
      j.val < i.val ∧ tr.get j = .persistOutcome (markedHash (tr.get i))

instance (tr : List Action) : Decidable (seenOnlyAfterPersist tr) := by
  unfold seenOnlyAfterPersist
  exact inferInstance

end Dedup

namespace Drain

/-- State of the settlement queue machinery in `BlockchainWatcher`:
`queue` is `transactionQueue`, `draining` is the `isProcessing`
reentrancy flag, and `consumed` records the order in which intents have
been dequeued (`shift`) for processing. -/
structure QState where
  queue : List QueueModel.QueueDonation
  draining : Bool
  consumed : List QueueModel.QueueDonation
deriving DecidableEq

/-- Events of the queue machinery.  `enqueue d` is `queueDonation(d)`
(push, then start the drain only when `isProcessing` is false);
`drainTick` is an invocation of `processTransactionQueue` (the periodic
5-second timer, or the tail recursion from a finished drain);
`drainDone` is the `finally` block of a drain step clearing
`isProcessing`. -/
inductive QEvent where
  | enqueue (d : QueueModel.QueueDonation)
  | drainTick
  | drainDone

/-- The entry of `processTransactionQueue`: return immediately when a
drain is already active or the queue is empty; otherwise set
`isProcessing` and `shift` the head of the queue for processing.  (The
`shift` happens synchronously before the first `await` of the drain
body.) -/
def drainBegin (s : QState) : QState :=
  if s.draining then s
  else
    match s.queue with
    | [] => s
    | d :: rest =>
      { queue := rest, draining := true, consumed := s.consumed ++ [d] }

/-- One step of the queue machinery. -/
def qstep (s : QState) : QEvent → QState
  | .enqueue d =>
    let s1 : QState := { s with queue := s.queue ++ [d] }
    if s1.draining then s1 else drainBegin s1
  | .drainTick => drainBegin s
  | .drainDone => { s with draining := false }

/-- The donations enqueued by a list of events, in order. -/
def enqueued : List QEvent → List QueueModel.QueueDonation
  | [] => []
  | .enqueue d :: rest => d :: enqueued rest
  | _ :: rest => enqueued rest

/-- The initial queue state. -/
def initialQState : QState := { queue := [], draining := false, consumed := [] }

/-- Run the machinery over a list of events. -/
def runQ (events : List QEvent) : QState :=
  events.foldl qstep initialQState

end Drain

namespace SeasonGoals

/-- C1: for a wallet with an active season goal of `G` settlement base
units (`G = dollarAmount * 1e6`), prior in-window sum `S` of successful
settlement amounts, and proposed donation `X > 0`,
`checkAndAdjustDonation` returns adjusted amount `0` and marks the goal
complete when `S ≥ G`; returns exactly `G - S` and marks the goal
complete when `S < G < S + X`; and returns `X` without completing the
goal otherwise. -/
theorem checkAndAdjustDonation_goal_cap
    (w : String) (X : Int) (s : SeasonDoc) (txs : List TxRecordDoc)
    (now : Nat) (d : Nat) (G S : Int)
    (hd : s.dollarAmount = some d) (hd0 : d ≠ 0)
    (hact : s.active = some true) (hX : 0 < X)
    (hG : G = (d : Int) * 1000000)
    (hS : S = (calculateTotalDonation (getSeasonTransactions w
      (s.startDate.getD s.creationTime) (s.endDate.getD now) txs) : Int)) :
    (G ≤ S →
      (checkAndAdjustDonation w X (.ok (some s)) (.ok txs) now).adjustedAmount = 0 ∧
      (checkAndAdjustDonation w X (.ok (some s)) (.ok txs) now).isGoalComplete = true ∧
      (checkAndAdjustDonation w X (.ok (some s)) (.ok txs) now).markedCompleted = true) ∧
    (S < G → G < S + X →
      (checkAndAdjustDonation w X (.ok (some s)) (.ok txs) now).adjustedAmount = G - S ∧
      (checkAndAdjustDonation w X (.ok (some s)) (.ok txs) now).isGoalComplete = true ∧
      (checkAndAdjustDonation w X (.ok (some s)) (.ok txs) now).markedCompleted = true) ∧
    (S < G → S + X ≤ G →
      (checkAndAdjustDonation w X (.ok (some s)) (.ok txs) now).adjustedAmount = X ∧
      (checkAndAdjustDonation w X (.ok (some s)) (.ok txs) now).isGoalComplete = false ∧
      (checkAndAdjustDonation w X (.ok (some s)) (.ok txs) now).markedCompleted = false) := by
  subst hG hS
  simp only [checkAndAdjustDonation, getMostRecentSeason, getSeasonTransactionsRun,
    hd, hact, dollarAmountTruthy]
  simp only [bne_iff_ne, ne_eq, hd0, not_false_eq_true, not_true_eq_false,
    if_false, if_true, Option.getD_some]
  refine ⟨fun hge => ?_, fun hlt hgt => ?_, fun hlt hle => ?_⟩
  · rw [if_pos hge]
    exact ⟨rfl, rfl, by simp⟩
  · rw [if_neg (by omega), if_pos (by omega)]
    exact ⟨rfl, rfl, rfl⟩
  · rw [if_neg (by omega), if_neg (by omega)]
    exact ⟨rfl, rfl, rfl⟩

/-- Witness for C1, on the specification's own scenario: goal 100 USD
(`G = 100000000` base units), prior donated `S = 95000000`, proposed
`X = 8000000`; the donation is adjusted to exactly `5000000` and the
goal is marked complete. -/
theorem checkAndAdjustDonation_goal_cap_witness :
    (95000000 : Int) < 100000000 ∧ (100000000 : Int) < 95000000 + 8000000 ∧
    (checkAndAdjustDonation "0xw" 8000000
      (.ok (some { sid := 1, walletAddress := "0xw", dollarAmount := some 100,
                   active := some true, startDate := none, endDate := none,
                   creationTime := 10 }))
      (.ok [{ txHash := "t1",
              donation := some { fromAddr := "0xw",
                                 usdcValue := some (.intStr 95000000) },
              status := "success", blockTimestamp := 20 }]) 100).adjustedAmount
      = 5000000 := by
  refine ⟨by decide, by decide, ?_⟩
  have h := checkAndAdjustDonation_goal_cap "0xw" 8000000
      { sid := 1, walletAddress := "0xw", dollarAmount := some 100,
        active := some true, startDate := none, endDate := none,
        creationTime := 10 }
      [{ txHash := "t1",
         donation := some { fromAddr := "0xw",
                            usdcValue := some (.intStr 95000000) },
         status := "success", blockTimestamp := 20 }]
      100 100 100000000 95000000 rfl (by decide) rfl (by decide) (by decide)
      (by decide)
  have h2 := (h.2.1 (by decide) (by decide)).1
  rw [h2]
  decide

/-- C9: for every wallet and proposed amount `X ≥ 0`, on every path of
`checkAndAdjustDonation` — including the catch fallback (`thrown`), a
failed season fetch, and the module-level wrapper fallback — the
adjusted amount satisfies `0 ≤ adjustedAmount ≤ X`. -/
theorem adjustedAmount_bounds
    (thrown : Bool) (w : String) (X : Int)
    (sf : Fetch (Option SeasonDoc)) (tf : Fetch (List TxRecordDoc)) (now : Nat)
    (hX : 0 ≤ X) :
    (0 ≤ (checkAndAdjustDonationRun thrown w X sf tf now).adjustedAmount ∧
      (checkAndAdjustDonationRun thrown w X sf tf now).adjustedAmount ≤ X) ∧
    (0 ≤ (wrappedCheckAndAdjustDonation none X).adjustedAmount ∧
      (wrappedCheckAndAdjustDonation none X).adjustedAmount ≤ X) := by
  refine ⟨?_, ⟨hX, le_refl X⟩⟩
  unfold checkAndAdjustDonationRun
  split
  · exact ⟨hX, le_refl X⟩
  · unfold checkAndAdjustDonation
    rcases hms : getMostRecentSeason sf with _ | s
    · exact ⟨hX, le_refl X⟩
    · dsimp only
      split
      · exact ⟨hX, le_refl X⟩
      · split
        · exact ⟨hX, le_refl X⟩
        · split
          · exact ⟨le_refl 0, hX⟩
          · split
            · rename_i h1 h2
              constructor
              · dsimp only
                omega
              · dsimp only
                omega
            · exact ⟨hX, le_refl X⟩

/-- Witness for C9 at a concrete input (store unreachable, `X = 5`). -/
theorem adjustedAmount_bounds_witness :
    (0 : Int) ≤ 5 ∧
    0 ≤ (checkAndAdjustDonationRun false "0xw" 5 .err .err 0).adjustedAmount ∧
    (checkAndAdjustDonationRun false "0xw" 5 .err .err 0).adjustedAmount ≤ 5 := by
  have h := adjustedAmount_bounds false "0xw" 5 .err .err 0 (by decide)
  exact ⟨by decide, h.1.1, h.1.2⟩

/-- C5 counterexample: a malformed transaction record (non-numeric
`usdcValue`) is an internal error by the claim's own enumeration, yet
`checkAndAdjustDonation` does not fall back to the proposed amount: with
goal 100 USD, one malformed in-window record (summed as `0`) and
proposed `150000000`, the result is the capped `100000000`, not the
proposed `150000000`. -/
theorem checkAndAdjustDonation_malformed_record_cex :
    (checkAndAdjustDonation "0xw" 150000000
      (.ok (some { sid := 7, walletAddress := "0xw", dollarAmount := some 100,
                   active := some true, startDate := none, endDate := none,
                   creationTime := 10 }))
      (.ok [{ txHash := "t9",
              donation := some { fromAddr := "0xw", usdcValue := some .nonNumeric },
              status := "success", blockTimestamp := 20 }]) 100).adjustedAmount
      = 100000000 ∧ (100000000 : Int) ≠ 150000000 := by decide

/-- C5 (amended): when the try block of `checkAndAdjustDonation` throws,
when the season fetch fails, or when the method resolves to `undefined`
(wrapper fallback), the call still yields a defined result whose
`adjustedAmount` equals the unadjusted proposed amount; malformed
transaction records, by contrast, are absorbed as zero contributions and
adjustment proceeds. -/
theorem checkAndAdjustDonation_error_fallback
    (w : String) (X : Int) (sf : Fetch (Option SeasonDoc))
    (tf : Fetch (List TxRecordDoc)) (now : Nat) :
    (checkAndAdjustDonationRun true w X sf tf now).adjustedAmount = X ∧
    (checkAndAdjustDonationRun true w X sf tf now).hasError = true ∧
    (checkAndAdjustDonation w X .err tf now).adjustedAmount = X ∧
    (wrappedCheckAndAdjustDonation none X).adjustedAmount = X :=
  ⟨rfl, rfl, rfl, rfl⟩

end SeasonGoals

namespace Watcher

/-- C4 counterexample: a strictly positive incoming native transfer of
1 wei at an ETH price of 3000 USD converts to `0` settlement base units,
and with percent `10 ∈ [1, 100]` the computed donation is `0`, not
strictly positive. -/
theorem positive_transfer_zero_donation_cex :
    0 < (1 : Nat) ∧ (1 : Nat) ≤ 10 ∧ (10 : Nat) ≤ 100 ∧
    finalDonationAmount (convertEthToUsdc 1 (3000 * 10 ^ 18)) 10 = 0 := by decide

/-- C4 (amended): for every strictly positive *converted* settlement
amount and percent `P ∈ [1, 100]`, the computed donation is strictly
positive, equals `floor(conv * P / 100)` when that is positive, and is
rounded up to `1` base unit when that floor is zero (the floating-point
estimate being positive exactly when `conv * P > 0`). -/
theorem finalDonationAmount_pos (conv P : Nat)
    (h1 : 1 ≤ P) (h2 : P ≤ 100) (hc : 0 < conv) :
    0 < finalDonationAmount conv P ∧
    (0 < conv * P / 100 → finalDonationAmount conv P = conv * P / 100) ∧
    (conv * P / 100 = 0 → finalDonationAmount conv P = 1) := by
  have hp : 0 < conv * P := Nat.mul_pos hc (by omega)
  unfold finalDonationAmount
  dsimp only
  by_cases hd : 0 < conv * P / 100
  · rw [if_pos hd]
    exact ⟨hd, fun _ => rfl, fun h0 => absurd h0 (by omega)⟩
  · rw [if_neg hd, if_pos hp, if_neg hd]
    exact ⟨Nat.one_pos, fun h => absurd h hd, fun _ => rfl⟩

/-- Witness for C4 (amended) at `conv = 50`, `P = 1`: the BigInt floor is
zero and the donation is rounded up to `1`. -/
theorem finalDonationAmount_pos_witness :
    (1 : Nat) ≤ 1 ∧ (1 : Nat) ≤ 100 ∧ 0 < (50 : Nat) ∧
    0 < finalDonationAmount 50 1 ∧ finalDonationAmount 50 1 = 1 := by
  have h := finalDonationAmount_pos 50 1 (by decide) (by decide) (by decide)
  exact ⟨by decide, by decide, by decide, h.1, h.2.2 (by decide)⟩

end Watcher

namespace Dedup

/-- C3 counterexample: handling a fresh mined transaction to a watched
wallet produces a trace in which the in-memory dedup set is marked
(`markSeen`) with no prior durably persisted outcome — the marking
happens on first sight, so the stated policy fails on this concrete
event. -/
theorem markSeen_before_persist_cex :
    ¬ seenOnlyAfterPersist
        (handleMinedTransaction ["0xw"] []
          { hash := "0xH1", toAddr := "0xW", value := 7 } true).2 ∧
    "0xh1" ∈ (handleMinedTransaction ["0xw"] []
        { hash := "0xH1", toAddr := "0xW", value := 7 } true).1 := by
  decide

/-- Helper: `checkTransaction` never removes entries from the
`processedTransactions` set. -/
theorem checkTransaction_processed_mono (watched processed : List String)
    (ev : TxEvent) (receiptOk : Bool) :
    ∀ x ∈ processed, x ∈ (checkTransaction watched processed ev receiptOk).1 := by
  intro x hx
  unfold checkTransaction
  dsimp only
  by_cases h0 : ev.toAddr = "" ∨ ev.value = 0
  · rw [if_pos h0]
    exact hx
  · rw [if_neg h0]
    by_cases hw : toLowerStr ev.toAddr ∈ watched
    · rw [if_pos hw]
      exact List.mem_cons_of_mem _ hx
    · rw [if_neg hw]
      exact hx

/-- Helper: no durable persistence happens inside `checkTransaction`. -/
theorem checkTransaction_no_persist (watched processed : List String)
    (ev : TxEvent) (receiptOk : Bool) :
    ∀ a ∈ (checkTransaction watched processed ev receiptOk).2,
      ∀ h, a ≠ Action.persistOutcome h := by
  intro a ha h
  unfold checkTransaction at ha
  dsimp only at ha
  cases receiptOk
  all_goals
    by_cases h0 : ev.toAddr = "" ∨ ev.value = 0
  · rw [if_pos h0] at ha
    simp at ha
  · rw [if_neg h0] at ha
    by_cases hw : toLowerStr ev.toAddr ∈ watched
    · rw [if_pos hw] at ha
      simp at ha
      rcases ha with rfl | rfl <;> simp
    · rw [if_neg hw] at ha
      simp at ha
  · rw [if_pos h0] at ha
    simp at ha
  · rw [if_neg h0] at ha
    by_cases hw : toLowerStr ev.toAddr ∈ watched
    · rw [if_pos hw] at ha
      simp at ha
      rcases ha with rfl | rfl | rfl <;> simp
    · rw [if_neg hw] at ha
      simp at ha

/-- C3 (amended): for every fresh event (hash nonempty and not yet in the
set), `handleMinedTransaction` marks the hash as seen as its *first*
action — before processing — the hash is in the set afterwards, and no
durable persistence of an outcome occurs anywhere in this phase
(persistence happens only later, in `processTransactionQueue`). -/
theorem handleMinedTransaction_marks_first
    (watched processed : List String) (ev : TxEvent) (receiptOk : Bool)
    (h1 : ev.hash ≠ "") (h2 : toLowerStr ev.hash ∉ processed) :
    (handleMinedTransaction watched processed ev receiptOk).2.head? =
      some (.markSeen (toLowerStr ev.hash)) ∧
    toLowerStr ev.hash ∈ (handleMinedTransaction watched processed ev receiptOk).1 ∧
    ∀ a ∈ (handleMinedTransaction watched processed ev receiptOk).2,
      ∀ h, a ≠ Action.persistOutcome h := by
  unfold handleMinedTransaction
  dsimp only
  rw [if_neg h1, if_neg h2]
  by_cases hw : ev.toAddr ≠ "" ∧ toLowerStr ev.toAddr ∈ watched
  · rw [if_pos hw]
    refine ⟨rfl, ?_, ?_⟩
    · exact checkTransaction_processed_mono watched _ ev receiptOk _
        (List.mem_cons_self _ _)
    · intro a ha h
      simp only [List.mem_cons, List.mem_append] at ha
      rcases ha with (rfl | ha) | (rfl | h0)
      · simp
      · exact checkTransaction_no_persist watched _ ev receiptOk a ha h
      · simp
      · exact absurd h0 (List.not_mem_nil a)
  · rw [if_neg hw]
    refine ⟨rfl, List.mem_cons_self _ _, ?_⟩
    intro a ha h
    simp only [List.mem_cons, List.mem_append] at ha
    rcases ha with (rfl | ha) | (rfl | h0)
    · simp
    · exact absurd ha (List.not_mem_nil a)
    · simp
    · exact absurd h0 (List.not_mem_nil a)

/-- Witness for C3 (amended) on a concrete fresh event. -/
theorem handleMinedTransaction_marks_first_witness :
    ("0xh2" : String) ≠ "" ∧
    (handleMinedTransaction ["0xw"] []
        { hash := "0xh2", toAddr := "0xz", value := 1 } false).2.head? =
      some (.markSeen (toLowerStr "0xh2")) := by
  refine ⟨by decide, ?_⟩
  exact (handleMinedTransaction_marks_first ["0xw"] []
    { hash := "0xh2", toAddr := "0xz", value := 1 } false (by decide) (by decide)).1

end Dedup

namespace Blockchain

/-- C10: on pre-formatted array input whose four arrays do not all have
equal length or whose `froms` array is empty, `processDonations` returns
a failure with message `"Invalid donation data format"` and performs no
chain interaction; on an empty flat-array input it returns success with
`"No donations to process"`, also without chain interaction. -/
theorem processDonations_format_checks (env : ChainEnv)
    (froms tos : List String) (donationTimes usdcAmounts : List Nat) (nowTs : Nat)
    (hbad : froms.length = 0 ∨ froms.length ≠ tos.length ∨
      froms.length ≠ donationTimes.length ∨ froms.length ≠ usdcAmounts.length) :
    processDonations env (.formatted froms tos donationTimes usdcAmounts) nowTs
      = ({ success := false, message := "Invalid donation data format",
           transactionHash := none }, []) ∧
    processDonations env (.flat []) nowTs
      = ({ success := true, message := "No donations to process",
           transactionHash := none }, []) := by
  constructor
  · unfold processDonations
    dsimp only
    rw [if_pos hbad]
  · rfl

/-- Witness for C10: a one-element `froms` with empty companion arrays. -/
theorem processDonations_format_checks_witness :
    ((["0xa"] : List String).length = 0 ∨
      (["0xa"] : List String).length ≠ ([] : List String).length ∨
      (["0xa"] : List String).length ≠ ([] : List Nat).length ∨
      (["0xa"] : List String).length ≠ ([] : List Nat).length) ∧
    processDonations
        { executorOk := true, allowanceOf := fun _ => 0, donateHash := "0xd",
          contractAddr := "0xc", operatorAddr := "0xop" }
        (.formatted ["0xa"] [] [] []) 0
      = ({ success := false, message := "Invalid donation data format",
           transactionHash := none }, []) := by
  refine ⟨by decide, ?_⟩
  exact (processDonations_format_checks _ ["0xa"] [] [] [] 0 (by decide)).1

/-- Helper: rebuilding the four parallel arrays of a batch yields the
batch itself. -/
theorem zipEntries_map (es : List BatchEntry) :
    zipEntries (es.map (·.fromAddr)) (es.map (·.toAddr))
      (es.map (·.donationTime)) (es.map (·.amount)) = es := by
  induction es with
  | nil => rfl
  | cons e rest ih => simp [zipEntries, ih]

/-- Helper: the allowance loop queries each entry exactly once, in
order. -/
theorem allowanceFilter_calls (env : ChainEnv) (es : List BatchEntry) :
    (allowanceFilter env es).2 =
      es.map (fun x => .allowanceCall x.fromAddr env.contractAddr) := by
  induction es with
  | nil => rfl
  | cons e rest ih =>
    unfold allowanceFilter
    dsimp only
    split <;> simp [ih]

/-- Helper: when every entry has sufficient allowance, the batch is kept
unchanged. -/
theorem allowanceFilter_all_pass (env : ChainEnv) (es : List BatchEntry)
    (hok : ∀ x ∈ es, ¬ env.allowanceOf x.fromAddr < x.amount) :
    (allowanceFilter env es).1 = es := by
  induction es with
  | nil => rfl
  | cons e rest ih =>
    unfold allowanceFilter
    dsimp only
    rw [if_neg (hok e (List.mem_cons_self e rest))]
    simp [ih (fun x hx => hok x (List.mem_cons_of_mem e hx))]

/-- Helper: an entry with insufficient allowance is spliced out while
all sufficient entries are kept. -/
theorem allowanceFilter_kept (env : ChainEnv)
    (e : BatchEntry) (pre post : List BatchEntry)
    (hfail : env.allowanceOf e.fromAddr < e.amount)
    (hok : ∀ x ∈ pre ++ post, ¬ env.allowanceOf x.fromAddr < x.amount) :
    (allowanceFilter env (pre ++ e :: post)).1 = pre ++ post := by
  induction pre with
  | nil =>
    simp only [List.nil_append] at hok ⊢
    unfold allowanceFilter
    dsimp only
    rw [if_pos hfail]
    exact allowanceFilter_all_pass env post hok
  | cons p ps ih =>
    have hp : ¬ env.allowanceOf p.fromAddr < p.amount :=
      hok p (List.mem_cons_self p (ps ++ post))
    have hok2 : ∀ x ∈ ps ++ post, ¬ env.allowanceOf x.fromAddr < x.amount := by
      intro x hx
      apply hok
      rw [List.cons_append]
      exact List.mem_cons_of_mem p hx
    simp only [List.cons_append]
    unfold allowanceFilter
    dsimp only
    rw [if_neg hp]
    simp [ih hok2]

/-- C6 (amended): in a batch where exactly one entry fails the allowance
check (and the operator is an executor), that entry is dropped without
retry, the remaining entries are submitted in a single `donate` call,
and the returned result reports overall success — identical to the
result for the batch that never contained the dropped entry, so the drop
is invisible in the call's outcome. -/
theorem processDonations_allowance_drop (env : ChainEnv)
    (e : BatchEntry) (pre post : List BatchEntry) (nowTs : Nat)
    (hexec : env.executorOk = true)
    (hfail : env.allowanceOf e.fromAddr < e.amount)
    (hok : ∀ x ∈ pre ++ post, ¬ env.allowanceOf x.fromAddr < x.amount)
    (hne : pre ++ post ≠ []) :
    processDonations env
        (.formatted ((pre ++ e :: post).map (·.fromAddr))
          ((pre ++ e :: post).map (·.toAddr))
          ((pre ++ e :: post).map (·.donationTime))
          ((pre ++ e :: post).map (·.amount))) nowTs
      = ({ success := true, message := "Donations processed successfully",
           transactionHash := some env.donateHash },
         .isExecutorCall env.operatorAddr ::
           (pre ++ e :: post).map
             (fun x => .allowanceCall x.fromAddr env.contractAddr) ++
           [.donateCall ((pre ++ post).map (·.fromAddr))
              ((pre ++ post).map (·.toAddr))
              ((pre ++ post).map (·.donationTime))
              ((pre ++ post).map (·.amount))]) ∧
    (processDonations env
        (.formatted ((pre ++ e :: post).map (·.fromAddr))
          ((pre ++ e :: post).map (·.toAddr))
          ((pre ++ e :: post).map (·.donationTime))
          ((pre ++ e :: post).map (·.amount))) nowTs).1
      = (processDonations env
          (.formatted ((pre ++ post).map (·.fromAddr))
            ((pre ++ post).map (·.toAddr))
            ((pre ++ post).map (·.donationTime))
            ((pre ++ post).map (·.amount))) nowTs).1 := by
  have hlen1 : (pre ++ e :: post).length ≠ 0 := by simp
  have hkept := allowanceFilter_kept env e pre post hfail hok
  have hcalls := allowanceFilter_calls env (pre ++ e :: post)
  have hmain :
      processDonations env
        (.formatted ((pre ++ e :: post).map (·.fromAddr))
          ((pre ++ e :: post).map (·.toAddr))
          ((pre ++ e :: post).map (·.donationTime))
          ((pre ++ e :: post).map (·.amount))) nowTs
      = ({ success := true, message := "Donations processed successfully",
           transactionHash := some env.donateHash },
         .isExecutorCall env.operatorAddr ::
           (pre ++ e :: post).map
             (fun x => .allowanceCall x.fromAddr env.contractAddr) ++
           [.donateCall ((pre ++ post).map (·.fromAddr))
              ((pre ++ post).map (·.toAddr))
              ((pre ++ post).map (·.donationTime))
              ((pre ++ post).map (·.amount))]) := by
    unfold processDonations
    dsimp only
    rw [if_neg (by simp)]
    rw [zipEntries_map]
    unfold submitBatch
    rw [if_neg (by simp), if_neg (by simp [hexec])]
    dsimp only
    rw [if_neg (by simp [hkept, List.isEmpty_iff, hne])]
    rw [hkept, hcalls]
  refine ⟨hmain, ?_⟩
  rw [hmain]
  have hside :
      processDonations env
        (.formatted ((pre ++ post).map (·.fromAddr))
          ((pre ++ post).map (·.toAddr))
          ((pre ++ post).map (·.donationTime))
          ((pre ++ post).map (·.amount))) nowTs
      = ({ success := true, message := "Donations processed successfully",
           transactionHash := some env.donateHash },
         .isExecutorCall env.operatorAddr ::
           (pre ++ post).map
             (fun x => .allowanceCall x.fromAddr env.contractAddr) ++
           [.donateCall ((pre ++ post).map (·.fromAddr))
              ((pre ++ post).map (·.toAddr))
              ((pre ++ post).map (·.donationTime))
              ((pre ++ post).map (·.amount))]) := by
    have hne2 : (pre ++ post).length ≠ 0 := by
      simpa [List.length_eq_zero] using hne
    unfold processDonations
    dsimp only
    rw [if_neg (by
      simp only [List.length_map, ne_eq]
      push_neg
      exact ⟨hne2, trivial, trivial, trivial⟩)]
    rw [zipEntries_map]
    unfold submitBatch
    rw [if_neg (by simp [List.isEmpty_iff, hne]), if_neg (by simp [hexec])]
    dsimp only
    rw [if_neg (by simp [allowanceFilter_all_pass env _ hok, List.isEmpty_iff, hne])]
    rw [allowanceFilter_all_pass env _ hok, allowanceFilter_calls]
  rw [hside]

/-- C6 counterexample: a 2-entry batch in which `0xalice` lacks
allowance returns the very same success result as the 1-entry batch that
never contained her entry — the dropped entry is not reported as
unsettled anywhere in the outcome, contradicting "never silently dropped
from visibility". -/
theorem allowance_drop_invisible_cex :
    (processDonations
        { executorOk := true,
          allowanceOf := fun a => if a == "0xbob" then 1000 else 0,
          donateHash := "0xdead", contractAddr := "0xc", operatorAddr := "0xop" }
        (.formatted ["0xalice", "0xbob"] ["0xt1", "0xt2"] [1, 2] [500, 300]) 0).1
      = { success := true, message := "Donations processed successfully",
          transactionHash := some "0xdead" } ∧
    (processDonations
        { executorOk := true,
          allowanceOf := fun a => if a == "0xbob" then 1000 else 0,
          donateHash := "0xdead", contractAddr := "0xc", operatorAddr := "0xop" }
        (.formatted ["0xalice", "0xbob"] ["0xt1", "0xt2"] [1, 2] [500, 300]) 0).1
      = (processDonations
          { executorOk := true,
            allowanceOf := fun a => if a == "0xbob" then 1000 else 0,
            donateHash := "0xdead", contractAddr := "0xc", operatorAddr := "0xop" }
          (.formatted ["0xbob"] ["0xt2"] [2] [300]) 0).1 := by decide

/-- Witness for C6 (amended) on the concrete 2-entry batch. -/
theorem processDonations_allowance_drop_witness :
    (0 : Nat) < 500 ∧
    (processDonations
        { executorOk := true,
          allowanceOf := fun a => if a == "0xbob" then 1000 else 0,
          donateHash := "0xdead", contractAddr := "0xc", operatorAddr := "0xop" }
        (.formatted ["0xalice", "0xbob"] ["0xt1", "0xt2"] [1, 2] [500, 300])
        0).1.success = true := by
  refine ⟨by decide, ?_⟩
  have h := processDonations_allowance_drop
      { executorOk := true,
        allowanceOf := fun a => if a == "0xbob" then 1000 else 0,
        donateHash := "0xdead", contractAddr := "0xc", operatorAddr := "0xop" }
      { fromAddr := "0xalice", toAddr := "0xt1", donationTime := 1, amount := 500 }
      [] [{ fromAddr := "0xbob", toAddr := "0xt2", donationTime := 2, amount := 300 }]
      0 rfl (by decide) (by decide) (by decide)
  exact congrArg (fun p => p.1.success) h.1

end Blockchain

namespace QueueModel

/-- C2: evaluation at the failing input.  A settlement record for
`0xaaa` already exists with status `success`; re-processing a queued
donation with the same source transaction id makes no chain call and
creates no second record, but the duplicate-key rejection of `save()` is
handled by the generic catch, which *overwrites the existing record* to
status `failed` with the duplicate-key message — instead of treating the
violation as "already handled" and leaving the record unchanged. -/
theorem processQueueItem_duplicate_clobbers :
    processQueueItem
        { executorOk := true, allowanceOf := fun _ => 1000000,
          donateHash := "0xdead", contractAddr := "0xc", operatorAddr := "0xop" }
        [{ txHash := "0xaaa", status := "success", errorMsg := none,
           donationAmount := 5, donationTxHash := some "0xdd" }]
        { txHash := "0xaaa", fromAddr := "0xW", toAddr := "0xT",
          donationAmount := 5, timestamp := 99 }
      = ([{ txHash := "0xaaa", status := "failed",
            errorMsg := some duplicateKeyMessage,
            donationAmount := 5, donationTxHash := some "0xdd" }], []) := by decide

end QueueModel

namespace Drain

/-- Helper: entering `processTransactionQueue` preserves the multiset
equation `consumed ++ queue`. -/
theorem drainBegin_inv (s : QState) :
    (drainBegin s).consumed ++ (drainBegin s).queue = s.consumed ++ s.queue := by
  unfold drainBegin
  split
  · rfl
  · split
    · rfl
    · rename_i d rest heq
      rw [heq]
      simp

/-- Helper: every event preserves `consumed ++ queue` up to the newly
enqueued donations. -/
theorem qstep_inv (s : QState) (e : QEvent) :
    (qstep s e).consumed ++ (qstep s e).queue =
      s.consumed ++ s.queue ++ enqueued [e] := by
  cases e with
  | enqueue d =>
    unfold qstep
    dsimp only
    split
    · simp [enqueued]
    · rw [drainBegin_inv]
      simp [enqueued]
  | drainTick =>
    show (drainBegin s).consumed ++ (drainBegin s).queue = _
    rw [drainBegin_inv]
    simp [enqueued]
  | drainDone =>
    simp [qstep, enqueued]

/-- Helper: the FIFO invariant along any run from any start state. -/
theorem runQ_fifo_general (events : List QEvent) (s : QState) :
    (events.foldl qstep s).consumed ++ (events.foldl qstep s).queue =
      s.consumed ++ s.queue ++ enqueued events := by
  induction events generalizing s with
  | nil => simp [enqueued]
  | cons e rest ih =>
    rw [List.foldl_cons, ih, qstep_inv]
    cases e <;> simp [enqueued]

/-- C7: the drain is strictly single-flight — while `isProcessing` is
set, a `processTransactionQueue` invocation is a no-op (the request is
deferred to a later cycle) and `queueDonation` only pushes, never starts
an overlapping drain — and along every event sequence from the initial
state the consumed intents followed by the still-queued intents are
exactly the enqueued intents in enqueue (FIFO) order. -/
theorem queue_single_flight_fifo :
    (∀ s : QState, s.draining = true →
      qstep s .drainTick = s ∧
      ∀ d, qstep s (.enqueue d) = { s with queue := s.queue ++ [d] }) ∧
    (∀ events : List QEvent,
      (runQ events).consumed ++ (runQ events).queue = enqueued events) := by
  constructor
  · intro s hs
    constructor
    · show drainBegin s = s
      unfold drainBegin
      rw [if_pos hs]
    · intro d
      unfold qstep
      dsimp only
      rw [if_pos hs]
  · intro events
    unfold runQ
    rw [runQ_fifo_general]
    simp [initialQState]

/-- Witness for C7: a drain tick during an active drain leaves the state
unchanged. -/
theorem queue_single_flight_fifo_witness :
    ({ queue := [], draining := true, consumed := [] } : QState).draining = true ∧
    qstep { queue := [], draining := true, consumed := [] } .drainTick
      = { queue := [], draining := true, consumed := [] } := by
  refine ⟨rfl, ?_⟩
  exact (queue_single_flight_fifo.1 _ rfl).1

end Drain

namespace Watcher

/-- Helper: the registry loop never removes already-registered
entries. -/
theorem refreshLoop_acc_sub (docs : List WalletConfigDoc)
    (processed : List String) (acc : List (String × WatchedWalletEntry)) :
    ∀ p ∈ acc, p ∈ refreshLoop docs processed acc := by
  induction docs generalizing processed acc with
  | nil => intro p hp; exact hp
  | cons c rest ih =>
    intro p hp
    unfold refreshLoop
    split
    · dsimp only
      split
      · exact ih _ _ p hp
      · exact ih _ _ p (List.mem_append_left _ hp)
    · exact ih _ _ p hp

/-- Helper: the registry loop keeps map keys distinct, given that the
accumulated keys are distinct and all tracked in `processedWallets`. -/
theorem refreshLoop_keys_nodup (docs : List WalletConfigDoc)
    (processed : List String) (acc : List (String × WatchedWalletEntry))
    (hacc : (acc.map Prod.fst).Nodup)
    (hsub : ∀ k ∈ acc.map Prod.fst, k ∈ processed) :
    ((refreshLoop docs processed acc).map Prod.fst).Nodup := by
  induction docs generalizing processed acc with
  | nil => exact hacc
  | cons c rest ih =>
    unfold refreshLoop
    split
    · dsimp only
      split
      · exact ih _ _ hacc hsub
      · rename_i hval hw
        apply ih
        · rw [List.map_append]
          simp only [List.map_cons, List.map_nil]
          rw [List.nodup_append]
          refine ⟨hacc, List.nodup_singleton _, fun k hk hkw => ?_⟩
          simp only [List.mem_singleton] at hkw
          subst hkw
          exact hw (hsub _ hk)
        · intro k hk
          rw [List.map_append] at hk
          rcases List.mem_append.mp hk with h1 | h2
          · exact List.mem_cons_of_mem _ (hsub k h1)
          · simp only [List.map_cons, List.map_nil, List.mem_singleton] at h2
            subst h2
            exact List.mem_cons_self _ _
    · exact ih _ _ hacc hsub

/-- Helper: every map entry produced by the registry loop stems from a
valid configuration document whose timestamp dominates all other valid
documents with the same normalised wallet key. -/
theorem refreshLoop_mem (docs : List WalletConfigDoc)
    (hsort : docs.Pairwise (fun a b => b.timestamp ≤ a.timestamp))
    (processed : List String) (acc : List (String × WatchedWalletEntry)) :
    ∀ p ∈ refreshLoop docs processed acc,
      p ∈ acc ∨
      (p.1 ∉ processed ∧ ∃ c, c ∈ docs ∧ configValid c = true ∧
        p.1 = normalizeWalletAddress c.walletAddress ∧ p.2 = mkEntry c ∧
        ∀ c2 ∈ docs, configValid c2 = true →
          normalizeWalletAddress c2.walletAddress = p.1 →
          c2.timestamp ≤ c.timestamp) := by
  induction docs generalizing processed acc with
  | nil => intro p hp; exact Or.inl hp
  | cons c rest ih =>
    have hsort2 : rest.Pairwise (fun a b => b.timestamp ≤ a.timestamp) :=
      (List.pairwise_cons.mp hsort).2
    have hhead : ∀ c2 ∈ rest, c2.timestamp ≤ c.timestamp :=
      (List.pairwise_cons.mp hsort).1
    intro p hp
    unfold refreshLoop at hp
    by_cases hval : configValid c = true
    · rw [if_pos hval] at hp
      dsimp only at hp
      by_cases hw : normalizeWalletAddress c.walletAddress ∈ processed
      · rw [if_pos hw] at hp
        rcases ih hsort2 _ _ p hp with hacc | ⟨hnp, c2, hc2, hval2, hkey, hent, hmax⟩
        · exact Or.inl hacc
        · refine Or.inr ⟨hnp, c2, List.mem_cons_of_mem _ hc2, hval2, hkey, hent, ?_⟩
          intro c3 hc3 hval3 hkey3
          rcases List.mem_cons.mp hc3 with rfl | htail
          · exact absurd (hkey3 ▸ hw) hnp
          · exact hmax c3 htail hval3 hkey3
      · rw [if_neg hw] at hp
        rcases ih hsort2 _ _ p hp with hacc | ⟨hnp, c2, hc2, hval2, hkey, hent, hmax⟩
        · rcases List.mem_append.mp hacc with h1 | h2
          · exact Or.inl h1
          · have hp2 : p = (normalizeWalletAddress c.walletAddress, mkEntry c) := by
              simpa using h2
            subst hp2
            refine Or.inr ⟨hw, c, List.mem_cons_self _ _, hval, rfl, rfl, ?_⟩
            intro c3 hc3 hval3 hkey3
            rcases List.mem_cons.mp hc3 with rfl | htail
            · exact le_refl _
            · exact hhead c3 htail
        · have hnp2 : p.1 ∉ processed :=
            fun hm => hnp (List.mem_cons_of_mem _ hm)
          refine Or.inr ⟨hnp2, c2, List.mem_cons_of_mem _ hc2, hval2, hkey, hent, ?_⟩
          intro c3 hc3 hval3 hkey3
          rcases List.mem_cons.mp hc3 with rfl | htail
          · exact absurd (hkey3 ▸ List.mem_cons_self _ processed) hnp
          · exact hmax c3 htail hval3 hkey3
    · rw [if_neg hval] at hp
      rcases ih hsort2 _ _ p hp with hacc | ⟨hnp, c2, hc2, hval2, hkey, hent, hmax⟩
      · exact Or.inl hacc
      · refine Or.inr ⟨hnp, c2, List.mem_cons_of_mem _ hc2, hval2, hkey, hent, ?_⟩
        intro c3 hc3 hval3 hkey3
        rcases List.mem_cons.mp hc3 with rfl | htail
        · exact absurd hval3 hval
        · exact hmax c3 htail hval3 hkey3

/-- Helper: every valid configuration document ends up represented in
the map (under its normalised key) or was already tracked. -/
theorem refreshLoop_covers (docs : List WalletConfigDoc)
    (processed : List String) (acc : List (String × WatchedWalletEntry)) :
    ∀ c ∈ docs, configValid c = true →
      normalizeWalletAddress c.walletAddress ∈ processed ∨
      normalizeWalletAddress c.walletAddress ∈
        (refreshLoop docs processed acc).map Prod.fst := by
  induction docs generalizing processed acc with
  | nil => intro c hc; exact absurd hc (List.not_mem_nil c)
  | cons c0 rest ih =>
    intro c hc hval
    rcases List.mem_cons.mp hc with rfl | htail
    · unfold refreshLoop
      rw [if_pos hval]
      dsimp only
      by_cases hw : normalizeWalletAddress c.walletAddress ∈ processed
      · exact Or.inl hw
      · rw [if_neg hw]
        right
        have hmem := refreshLoop_acc_sub rest
          (normalizeWalletAddress c.walletAddress :: processed)
          (acc ++ [(normalizeWalletAddress c.walletAddress, mkEntry c)])
          (normalizeWalletAddress c.walletAddress, mkEntry c)
          (List.mem_append_right _ (List.mem_singleton_self _))
        exact List.mem_map_of_mem Prod.fst hmem
    · unfold refreshLoop
      by_cases hval0 : configValid c0 = true
      · rw [if_pos hval0]
        dsimp only
        by_cases hw0 : normalizeWalletAddress c0.walletAddress ∈ processed
        · rw [if_pos hw0]
          exact ih _ _ c htail hval
        · rw [if_neg hw0]
          rcases ih (normalizeWalletAddress c0.walletAddress :: processed)
              (acc ++ [(normalizeWalletAddress c0.walletAddress, mkEntry c0)])
              c htail hval with hin | hin
          · rcases List.mem_cons.mp hin with heq | hin2
            · right
              rw [heq]
              have hmem := refreshLoop_acc_sub rest
                (normalizeWalletAddress c0.walletAddress :: processed)
                (acc ++ [(normalizeWalletAddress c0.walletAddress, mkEntry c0)])
                (normalizeWalletAddress c0.walletAddress, mkEntry c0)
                (List.mem_append_right _ (List.mem_singleton_self _))
              exact List.mem_map_of_mem Prod.fst hmem
            · exact Or.inl hin2
          · exact Or.inr hin
      · rw [if_neg hval0]
        exact ih _ _ c htail hval

/-- C8: after a registry refresh over a query result sorted by creation
timestamp descending, the watched-wallet map has pairwise-distinct keys,
each entry holds exactly one configuration, each key is the
lowercase-normalised address of the originating valid document, the
chosen document's timestamp dominates every other valid document for the
same wallet (most recent wins, others ignored), and every valid document
is represented. -/
theorem refreshWatchedWallets_canonical (docs : List WalletConfigDoc)
    (hsort : docs.Pairwise (fun a b => b.timestamp ≤ a.timestamp)) :
    ((refreshWatchedWallets docs).map Prod.fst).Nodup ∧
    (∀ p ∈ refreshWatchedWallets docs, ∃ c, c ∈ docs ∧ configValid c = true ∧
      p.1 = normalizeWalletAddress c.walletAddress ∧
      p.2.configurations = [mkWalletConfig c] ∧
      ∀ c2 ∈ docs, configValid c2 = true →
        normalizeWalletAddress c2.walletAddress = p.1 →
        c2.timestamp ≤ c.timestamp) ∧
    (∀ c ∈ docs, configValid c = true →
      normalizeWalletAddress c.walletAddress ∈
        (refreshWatchedWallets docs).map Prod.fst) := by
  refine ⟨?_, ?_, ?_⟩
  · exact refreshLoop_keys_nodup docs [] [] List.nodup_nil (by simp)
  · intro p hp
    rcases refreshLoop_mem docs hsort [] [] p hp with
      hacc | ⟨hnp, c, hc, hval, hkey, hent, hmax⟩
    · exact absurd hacc (List.not_mem_nil p)
    · exact ⟨c, hc, hval, hkey, by rw [hent]; rfl, hmax⟩
  · intro c hc hval
    rcases refreshLoop_covers docs [] [] c hc hval with h1 | h2
    · exact absurd h1 (List.not_mem_nil _)
    · exact h2

/-- Witness for C8: two store configurations for the same wallet
(`0xAA` / `0xaa`, timestamps 90 and 50); the refreshed map has distinct
keys (and, by the theorem, keeps only the most recent document). -/
theorem refreshWatchedWallets_canonical_witness :
    ([{ cid := 2, walletAddress := "0xAA", target := "0xT2", percentAmount := 5,
        authorized := "", network := "", lastDonation := 0, timestamp := 90 },
      { cid := 1, walletAddress := "0xaa", target := "0xT1", percentAmount := 10,
        authorized := "0xC", network := "base", lastDonation := 3, timestamp := 50 }] :
      List WalletConfigDoc).Pairwise (fun a b => b.timestamp ≤ a.timestamp) ∧
    ((refreshWatchedWallets
        [{ cid := 2, walletAddress := "0xAA", target := "0xT2", percentAmount := 5,
           authorized := "", network := "", lastDonation := 0, timestamp := 90 },
         { cid := 1, walletAddress := "0xaa", target := "0xT1", percentAmount := 10,
           authorized := "0xC", network := "base", lastDonation := 3,
           timestamp := 50 }]).map Prod.fst).Nodup := by
  refine ⟨by decide, ?_⟩
  exact (refreshWatchedWallets_canonical _ (by decide)).1

end Watcher
